import Mathlib

/-!
# Verification of the `gf` tile-map rendering layer (`TileLayer`)

A shallow embedding of `src/include/gf/Memory.h` (the `TileLayer`
implementation) in Lean 4. Machine `unsigned` (32-bit) arithmetic is
modelled as `Nat` with explicit reduction modulo `2^32`; `float`
quantities are modelled exactly as `ℚ`; fallible operations (null
dereference, division by zero, failed `assert`) return `Option`.
External collaborator types (rectangles, the texture atlas, the
transform) are not under `src/` and are modelled from the spec where
noted.
-/

namespace GfTileLayer

/-- Modulus of C++ 32-bit `unsigned` arithmetic. -/
def U32 : ℕ := 2 ^ 32

/-- 32-bit unsigned addition (wraps modulo `2^32`). -/
def u32add (a b : ℕ) : ℕ := (a + b) % U32

/-- 32-bit unsigned subtraction (wraps modulo `2^32`). -/
def u32sub (a b : ℕ) : ℕ := (a % U32 + U32 - b % U32) % U32

/-- 32-bit unsigned multiplication (wraps modulo `2^32`). -/
def u32mul (a b : ℕ) : ℕ := (a * b) % U32

/-- `gf::Vector2u`: a pair of 32-bit unsigned components (width, height). -/
abbrev Vec2N := ℕ × ℕ

/-- A pair of `float` components, modelled exactly as rationals. -/
abbrev Vec2Q := ℚ × ℚ

/-- `gf::Flags<gf::Flip>`: a bitset of the three flip flags. -/
structure FlipFlags where
  horizontally : Bool
  vertically : Bool
  diagonally : Bool
deriving DecidableEq, Repr

/-- The empty flip set (`gf::None`). -/
def noFlip : FlipFlags := ⟨false, false, false⟩

/-- One cell of the tile grid: a signed tile index and a flip set. -/
structure Cell where
  tile : ℤ
  flip : FlipFlags
deriving DecidableEq, Repr

/-- `TileLayer::NoTile`, the sentinel tile index. -/
def NoTile : ℤ := -1

/-- `gf::RectU`: an unsigned rectangle (position and size). -/
structure RectN where
  left : ℕ
  top : ℕ
  width : ℕ
  height : ℕ
deriving DecidableEq, Repr

/-- `gf::RectF`: a float rectangle, components modelled as rationals. -/
structure RectQ where
  left : ℚ
  top : ℚ
  width : ℚ
  height : ℚ
deriving DecidableEq, Repr

/-- `RectF::getTopLeft`. -/
def RectQ.getTopLeft (r : RectQ) : Vec2Q := (r.left, r.top)

/-- `RectF::getTopRight`. -/
def RectQ.getTopRight (r : RectQ) : Vec2Q := (r.left + r.width, r.top)

/-- `RectF::getBottomLeft`. -/
def RectQ.getBottomLeft (r : RectQ) : Vec2Q := (r.left, r.top + r.height)

/-- `RectF::getBottomRight`. -/
def RectQ.getBottomRight (r : RectQ) : Vec2Q := (r.left + r.width, r.top + r.height)

/-- `gf::Vertex`: a position paired with texture coordinates (colors are
left at their default and ignored). -/
structure Vertex where
  position : Vec2Q
  texCoords : Vec2Q
deriving DecidableEq, Repr

/-- The texture collaborator: only its pixel size is consulted. -/
structure TextureInfo where
  size : Vec2N
deriving DecidableEq, Repr

/-- Modelled from the spec: the layer's inverse transform (§4.3 step 3,
"the inverse of the layer's transform"). The real transform is built from
position/rotation/scale/origin with irrational `cos`/`sin`; it is kept as
an abstract affine map `p ↦ (a·x + b·y + c, d·x + e·y + f)` over `ℚ`. -/
structure Aff where
  a : ℚ
  b : ℚ
  c : ℚ
  d : ℚ
  e : ℚ
  f : ℚ
deriving DecidableEq, Repr

/-- The identity affine map (default transform of a fresh layer). -/
def Aff.id : Aff := ⟨1, 0, 0, 0, 1, 0⟩

/-- Apply an affine map to a point. -/
def Aff.apply (m : Aff) (p : Vec2Q) : Vec2Q :=
  (m.a * p.1 + m.b * p.2 + m.c, m.d * p.1 + m.e * p.2 + m.f)

/-- Modelled from the spec: `gf::transform(matrix, rect)` maps a rectangle
through a transform (§4.3 step 3); it is the axis-aligned bounding box of
the images of the four corners. -/
def transformRect (m : Aff) (r : RectQ) : RectQ :=
  let p1 := m.apply r.getTopLeft
  let p2 := m.apply r.getTopRight
  let p3 := m.apply r.getBottomLeft
  let p4 := m.apply r.getBottomRight
  let lo1 := min (min p1.1 p2.1) (min p3.1 p4.1)
  let lo2 := min (min p1.2 p2.2) (min p3.2 p4.2)
  let hi1 := max (max p1.1 p2.1) (max p3.1 p4.1)
  let hi2 := max (max p1.2 p2.2) (max p3.2 p4.2)
  ⟨lo1, lo2, hi1 - lo1, hi2 - lo2⟩

/-- Modelled from the spec: `RectF::grow(value)` extends the rectangle by
`value` on every side (§4.3 step 3, "grow it by the larger of the two
block-size dimensions (one extra ring of cells)"). -/
def RectQ.grow (r : RectQ) (v : ℚ) : RectQ :=
  ⟨r.left - v, r.top - v, r.width + 2 * v, r.height + 2 * v⟩

/-- Modelled from the spec: `RectF::intersects(other, result)` (§4.3
step 4); returns the intersection when it is non-empty, `none` otherwise. -/
def intersectRect (r s : RectQ) : Option RectQ :=
  let lo1 := max r.left s.left
  let lo2 := max r.top s.top
  let hi1 := min (r.left + r.width) (s.left + s.width)
  let hi2 := min (r.top + r.height) (s.top + s.height)
  if lo1 < hi1 ∧ lo2 < hi2 then some ⟨lo1, lo2, hi1 - lo1, hi2 - lo2⟩ else none

/-- Modelled from the spec: `Texture::computeTextureCoords(pixelRect)`
(§6, "converts pixel rects to normalized coordinates"): divide position
and size componentwise by the texture's pixel size. -/
def computeTextureCoords (tex : TextureInfo) (r : RectN) : RectQ :=
  ⟨(r.left : ℚ) / (tex.size.1 : ℚ), (r.top : ℚ) / (tex.size.2 : ℚ),
    (r.width : ℚ) / (tex.size.1 : ℚ), (r.height : ℚ) / (tex.size.2 : ℚ)⟩

/-- Modelled from the spec: the `gf::Sqrt2` constant (§4.3 step 1,
"multiply the larger of (view width, view height) by √2"), the `double`
approximation of √2 as an exact rational. -/
def sqrtTwo : ℚ := 14142135623730951 / 10000000000000000

/-- The nine `gf::Anchor` values. -/
inductive Anchor where
  | topLeft | topCenter | topRight
  | centerLeft | center | centerRight
  | bottomLeft | bottomCenter | bottomRight
deriving DecidableEq, Repr

/-- Modelled from the spec: the fractional position of an anchor within a
bounding rectangle (§4.1/§4.2 collaborator `setOriginFromAnchorAndBounds`). -/
def anchorFactor (a : Anchor) : Vec2Q :=
  match a with
  | .topLeft => (0, 0)
  | .topCenter => (1/2, 0)
  | .topRight => (1, 0)
  | .centerLeft => (0, 1/2)
  | .center => (1/2, 1/2)
  | .centerRight => (1, 1/2)
  | .bottomLeft => (0, 1)
  | .bottomCenter => (1/2, 1)
  | .bottomRight => (1, 1)

/-- The state of a `TileLayer`: configuration, grid (row-major), cached
visible rectangle and cached vertex stream, plus the modelled
transformable state (origin, inverse transform). -/
structure TileLayer where
  m_layerSize : Vec2N
  m_blockSize : Vec2N
  m_texture : Option TextureInfo
  m_tileSize : Vec2N
  m_margin : Vec2N
  m_spacing : Vec2N
  m_tiles : List Cell
  m_rect : RectN
  m_vertices : List Vertex
  m_origin : Vec2Q
  m_inv : Aff
deriving DecidableEq, Repr

namespace TileLayer

/-- Modelled from the spec: `Array2D::isValid(position)` — a coordinate is
valid when each component is below the corresponding grid dimension (§3,
"every coordinate passed to accessors must satisfy
`0 ≤ x < width, 0 ≤ y < height`"). -/
def isValid (s : TileLayer) (p : Vec2N) : Prop :=
  p.1 < s.m_layerSize.1 ∧ p.2 < s.m_layerSize.2

instance (s : TileLayer) (p : Vec2N) : Decidable (s.isValid p) := by
  unfold isValid; infer_instance

/-- Modelled from the spec: the row-major flat index of a grid coordinate
(§9, "fixed-size 2D array with manual row-major indexing"). -/
def index (s : TileLayer) (p : Vec2N) : ℕ := p.2 * s.m_layerSize.1 + p.1

/-- Modelled from the spec: `Array2D` cell read, `m_tiles(position)`. -/
def cellAt (s : TileLayer) (p : Vec2N) : Cell :=
  s.m_tiles.getD (s.index p) ⟨NoTile, noFlip⟩

/-- `TileLayer::clear()`: reset every cell to the sentinel tile and the
empty flip set. -/
def clear (s : TileLayer) : TileLayer :=
  { s with m_tiles := s.m_tiles.map (fun _ => ⟨NoTile, noFlip⟩) }

/-- The `TileLayer` constructor: store the layer size, zero-initialise the
configuration, size the grid and `clear()` it. -/
def init (layerSize : Vec2N) : TileLayer :=
  clear
    { m_layerSize := layerSize
      m_blockSize := (0, 0)
      m_texture := none
      m_tileSize := (0, 0)
      m_margin := (0, 0)
      m_spacing := (0, 0)
      m_tiles := List.replicate (layerSize.1 * layerSize.2) ⟨NoTile, noFlip⟩
      m_rect := ⟨0, 0, 0, 0⟩
      m_vertices := []
      m_origin := (0, 0)
      m_inv := Aff.id }

/-- `TileLayer::setTexture`. -/
def setTexture (tex : TextureInfo) (s : TileLayer) : TileLayer :=
  { s with m_texture := some tex }

/-- `TileLayer::unsetTexture`. -/
def unsetTexture (s : TileLayer) : TileLayer :=
  { s with m_texture := none }

/-- `TileLayer::setTileSize`. -/
def setTileSize (tileSize : Vec2N) (s : TileLayer) : TileLayer :=
  { s with m_tileSize := tileSize }

/-- `TileLayer::setMargin`. -/
def setMargin (margin : Vec2N) (s : TileLayer) : TileLayer :=
  { s with m_margin := margin }

/-- `TileLayer::setSpacing`. -/
def setSpacing (spacing : Vec2N) (s : TileLayer) : TileLayer :=
  { s with m_spacing := spacing }

/-- `TileLayer::setBlockSize`. -/
def setBlockSize (blockSize : Vec2N) (s : TileLayer) : TileLayer :=
  { s with m_blockSize := blockSize }

/-- `TileLayer::getBlockSize()`: fall back to the tile size when both
stored block-size components are zero. -/
def getBlockSize (s : TileLayer) : Vec2N :=
  if s.m_blockSize.2 = 0 ∧ s.m_blockSize.1 = 0 then s.m_tileSize
  else s.m_blockSize

/-- `TileLayer::setTile(position, tile, flip)`: overwrite the cell
(the `assert(m_tiles.isValid(position))` is a precondition of the
theorems below). -/
def setTile (p : Vec2N) (tile : ℤ) (flip : FlipFlags) (s : TileLayer) : TileLayer :=
  { s with m_tiles := s.m_tiles.set (s.index p) ⟨tile, flip⟩ }

/-- `TileLayer::getTile(position)`. -/
def getTile (s : TileLayer) (p : Vec2N) : ℤ := (s.cellAt p).tile

/-- `TileLayer::getFlip(position)`. -/
def getFlip (s : TileLayer) (p : Vec2N) : FlipFlags := (s.cellAt p).flip

/-- `TileLayer::getLocalBounds()`: the rectangle from the origin to
`m_layerSize * m_blockSize` — note the raw stored block size, not
`getBlockSize()`. -/
def getLocalBounds (s : TileLayer) : RectQ :=
  ⟨0, 0, (u32mul s.m_layerSize.1 s.m_blockSize.1 : ℚ),
    (u32mul s.m_layerSize.2 s.m_blockSize.2 : ℚ)⟩

/-- `TileLayer::setAnchor(anchor)`: set the origin from the anchor and
`getLocalBounds()` (the `setOriginFromAnchorAndBounds` collaborator is
modelled from the spec as the anchor's fractional position in bounds). -/
def setAnchor (a : Anchor) (s : TileLayer) : TileLayer :=
  let bounds := s.getLocalBounds
  { s with m_origin :=
      (bounds.left + (anchorFactor a).1 * bounds.width,
        bounds.top + (anchorFactor a).2 * bounds.height) }

end TileLayer

/-- The four corner vertices built for one tile, in the source's index
order `0 = top-left, 1 = top-right, 2 = bottom-left, 3 = bottom-right`. -/
structure Quad where
  v0 : Vertex
  v1 : Vertex
  v2 : Vertex
  v3 : Vertex
deriving DecidableEq, Repr

/-- Swap the texture coordinates of two vertices, keeping positions. -/
def swapTex (x y : Vertex) : Vertex × Vertex :=
  (⟨x.position, y.texCoords⟩, ⟨y.position, x.texCoords⟩)

/-- The flip step of `fillVertexArray` (source lines 276–288): three
conditional texture-coordinate swaps, in the fixed order diagonal
(`v1 ↔ v2`), then horizontal (`v0 ↔ v1`, `v2 ↔ v3`), then vertical
(`v0 ↔ v2`, `v1 ↔ v3`). -/
def flipTexCoords (flip : FlipFlags) (q : Quad) : Quad :=
  let q :=
    if flip.diagonally then
      let p := swapTex q.v1 q.v2
      { q with v1 := p.1, v2 := p.2 }
    else q
  let q :=
    if flip.horizontally then
      let p := swapTex q.v0 q.v1
      let r := swapTex q.v2 q.v3
      { q with v0 := p.1, v1 := p.2, v2 := r.1, v3 := r.2 }
    else q
  let q :=
    if flip.vertically then
      let p := swapTex q.v0 q.v2
      let r := swapTex q.v1 q.v3
      { q with v0 := p.1, v2 := p.2, v1 := r.1, v3 := r.2 }
    else q
  q

/-- The spec-side single diagonal flip: swap the top-right and bottom-left
texture coordinates. -/
def diagonalFlipSpec (q : Quad) : Quad :=
  { q with v1 := ⟨q.v1.position, q.v2.texCoords⟩, v2 := ⟨q.v2.position, q.v1.texCoords⟩ }

/-- The spec-side single horizontal flip: swap the left and right pairs of
texture coordinates. -/
def horizontalFlipSpec (q : Quad) : Quad where
  v0 := ⟨q.v0.position, q.v1.texCoords⟩
  v1 := ⟨q.v1.position, q.v0.texCoords⟩
  v2 := ⟨q.v2.position, q.v3.texCoords⟩
  v3 := ⟨q.v3.position, q.v2.texCoords⟩

/-- The spec-side single vertical flip: swap the top and bottom pairs of
texture coordinates. -/
def verticalFlipSpec (q : Quad) : Quad where
  v0 := ⟨q.v0.position, q.v2.texCoords⟩
  v1 := ⟨q.v1.position, q.v3.texCoords⟩
  v2 := ⟨q.v2.position, q.v0.texCoords⟩
  v3 := ⟨q.v3.position, q.v1.texCoords⟩

namespace TileLayer

/-- The body of `fillVertexArray`'s loop for one cell (source lines
234–300). Returns the vertices appended for this cell: `[]` for a
sentinel tile, six vertices otherwise; `none` models a fault (failed
`assert` on an invalid coordinate, a negative non-sentinel tile index or
an out-of-range atlas row, or the `tile % tilesetSize.width` division by
zero). `tilesetSize` and `blockSize` are the values hoisted before the
loop. -/
def emitCell (s : TileLayer) (tex : TextureInfo) (tilesetSize blockSize : Vec2N)
    (cell : Vec2N) : Option (List Vertex) :=
  if ¬ s.isValid cell then none
  else
    let c := s.cellAt cell
    if c.tile = NoTile then some []
    else if c.tile < 0 then none
    else if tilesetSize.1 = 0 then none
    else
      let t := c.tile.toNat
      let tileCoords : Vec2N := (t % tilesetSize.1, t / tilesetSize.1)
      if ¬ tileCoords.2 < tilesetSize.2 then none
      else
        let position : RectQ :=
          ⟨(u32mul cell.1 blockSize.1 : ℚ), (u32mul cell.2 blockSize.2 : ℚ),
            (blockSize.1 : ℚ), (blockSize.2 : ℚ)⟩
        let textureRect : RectN :=
          ⟨u32add (u32add (u32mul tileCoords.1 s.m_tileSize.1)
              (u32mul tileCoords.1 s.m_spacing.1)) s.m_margin.1,
            u32add (u32add (u32mul tileCoords.2 s.m_tileSize.2)
              (u32mul tileCoords.2 s.m_spacing.2)) s.m_margin.2,
            s.m_tileSize.1, s.m_tileSize.2⟩
        let textureCoords := computeTextureCoords tex textureRect
        let q : Quad :=
          ⟨⟨position.getTopLeft, textureCoords.getTopLeft⟩,
            ⟨position.getTopRight, textureCoords.getTopRight⟩,
            ⟨position.getBottomLeft, textureCoords.getBottomLeft⟩,
            ⟨position.getBottomRight, textureCoords.getBottomRight⟩⟩
        let q := flipTexCoords c.flip q
        some [q.v0, q.v1, q.v2, q.v2, q.v1, q.v3]

/-- The cells visited by `fillVertexArray`'s double loop over `rect`, in
row-major order (`local.y` outer, `local.x` inner), as
`rect.getPosition() + local` in unsigned arithmetic. -/
def cellsOf (rect : RectN) : List Vec2N :=
  (List.range rect.height).flatMap fun ly =>
    (List.range rect.width).map fun lx =>
      (u32add rect.left lx, u32add rect.top ly)

/-- The loop of `fillVertexArray`: visit the cells in order, appending
each cell's vertices to the stream; a fault at any cell aborts the whole
call. -/
def appendCells (s : TileLayer) (tex : TextureInfo) (tilesetSize blockSize : Vec2N) :
    List Vec2N → Option (List Vertex)
  | [] => some []
  | c :: cs =>
    match s.emitCell tex tilesetSize blockSize c with
    | none => none
    | some vs => (appendCells s tex tilesetSize blockSize cs).map (vs ++ ·)

/-- The divisor of the atlas-width computation, `m_tileSize + m_spacing`
in unsigned arithmetic. -/
def tileStep (s : TileLayer) : Vec2N :=
  (u32add s.m_tileSize.1 s.m_spacing.1, u32add s.m_tileSize.2 s.m_spacing.2)

/-- The atlas grid size computed by `fillVertexArray` (source line 227):
`(textureSize − 2·margin + spacing) / (tileSize + spacing)`, componentwise
in unsigned arithmetic. -/
def tilesetSizeOf (s : TileLayer) (tex : TextureInfo) : Vec2N :=
  (u32add (u32sub tex.size.1 (u32mul 2 s.m_margin.1)) s.m_spacing.1 / (tileStep s).1,
    u32add (u32sub tex.size.2 (u32mul 2 s.m_margin.2)) s.m_spacing.2 / (tileStep s).2)

/-- `TileLayer::fillVertexArray(array, rect)` (source lines 224–304): the
vertex stream appended for `rect`. `none` models a fault: the
`m_texture->getSize()` dereference with no texture bound, the unsigned
division `(textureSize − 2·margin + spacing) / (tileSize + spacing)` with
a zero divisor component, or a per-cell fault of `emitCell`. -/
def fillVertexArray (s : TileLayer) (rect : RectN) : Option (List Vertex) :=
  match s.m_texture with
  | none => none
  | some tex =>
    if (tileStep s).1 = 0 ∨ (tileStep s).2 = 0 then none
    else s.appendCells tex (tilesetSizeOf s tex) s.getBlockSize (cellsOf rect)

/-- `TileLayer::commitGeometry()`: synthesize the full grid rectangle into
a fresh buffer, bypassing the cache. The returned list stands for the
loaded `VertexBuffer` contents. -/
def commitGeometry (s : TileLayer) : Option (List Vertex) :=
  fillVertexArray s ⟨0, 0, s.m_layerSize.1, s.m_layerSize.2⟩

/-- `TileLayer::updateGeometry()` (source lines 306–314): clear the cached
stream; return at a degenerate configuration (no texture or a zero
tile-size component); otherwise refill from `m_rect`. `none` propagates a
synthesis fault. -/
def updateGeometry (s : TileLayer) : Option TileLayer :=
  if s.m_texture = none ∨ s.m_tileSize.1 = 0 ∨ s.m_tileSize.2 = 0 then
    some { s with m_vertices := [] }
  else
    (fillVertexArray s s.m_rect).map fun l => { s with m_vertices := l }

/-- The render target's view: center and size in world units. -/
structure View where
  center : Vec2Q
  size : Vec2Q
deriving DecidableEq, Repr

/-- The local-space bounds used by `draw` for culling (source line 195):
`(0,0)` to `m_layerSize * blockSize` with the `getBlockSize()` fallback
applied — unlike `getLocalBounds()`. -/
def cullingBounds (s : TileLayer) : RectQ :=
  ⟨0, 0, (u32mul s.m_layerSize.1 s.getBlockSize.1 : ℚ),
    (u32mul s.m_layerSize.2 s.getBlockSize.2 : ℚ)⟩

/-- Round a non-negative float to an unsigned integer as the source's
`RectU` assignment does: add `0.5` happened already, truncate toward
zero. -/
def toU (q : ℚ) : ℕ := ⌊q⌋.toNat

/-- The visible cell rectangle computed by `draw` (source lines 182–203):
inflate the view by `√2 · max(width, height)`, map it to layer-local
space, grow by the larger block-size component, intersect with the layer
bounds and convert to cell coordinates with round-to-nearest. -/
def computeRect (s : TileLayer) (view : View) : RectN :=
  let blockSize := s.getBlockSize
  let sz := sqrtTwo * max view.size.1 view.size.2
  let world : RectQ := ⟨view.center.1 - sz / 2, view.center.2 - sz / 2, sz, sz⟩
  let lcl := (transformRect s.m_inv world).grow (max blockSize.1 blockSize.2 : ℕ)
  let layer := s.cullingBounds
  match intersectRect lcl layer with
  | none => ⟨0, 0, 0, 0⟩
  | some inter =>
    ⟨toU (inter.left / (blockSize.1 : ℚ) + 1/2), toU (inter.top / (blockSize.2 : ℚ) + 1/2),
      toU (inter.width / (blockSize.1 : ℚ) + 1/2), toU (inter.height / (blockSize.2 : ℚ) + 1/2)⟩

/-- `TileLayer::draw(target, states)` (source lines 177–221). Returns the
new state, whether the geometry was rebuilt (`rect != m_rect`), and the
vertex stream submitted to the render target (`none` when the call
returned early because no texture is bound). The outer `none` propagates
a synthesis fault inside the rebuild. -/
def draw (s : TileLayer) (view : View) : Option (TileLayer × Bool × Option (List Vertex)) :=
  match s.m_texture with
  | none => some (s, false, none)
  | some _ =>
    if s.computeRect view = s.m_rect then
      some (s, false, some s.m_vertices)
    else
      (updateGeometry { s with m_rect := s.computeRect view }).map fun s2 =>
        (s2, true, some s2.m_vertices)

end TileLayer

open TileLayer

/-! ## Concrete states used by witnesses and counterexamples -/

/-- A 1×1 layer with a 2×2 texture, 2×2 tiles and tile `0` set at the
origin: a healthy configuration whose geometry synthesis succeeds. -/
def layerA : TileLayer :=
  setTile (0, 0) 0 noFlip (setTileSize (2, 2) (setTexture ⟨(2, 2)⟩ (init (1, 1))))

/-- A view centered at `(1,1)` of size `1×1`. -/
def viewA : View := ⟨(1, 1), (1, 1)⟩

/-- The six vertices `draw layerA viewA` synthesizes. -/
def vertsA : List Vertex :=
  [⟨(0, 0), (0, 0)⟩, ⟨(2, 0), (1, 0)⟩, ⟨(0, 2), (0, 1)⟩,
    ⟨(0, 2), (0, 1)⟩, ⟨(2, 0), (1, 0)⟩, ⟨(2, 2), (1, 1)⟩]

/-- The state `draw layerA viewA` produces: visible rectangle `(0,0,1,1)`
cached together with its six vertices. -/
def layerB : TileLayer := { layerA with m_rect := ⟨0, 0, 1, 1⟩, m_vertices := vertsA }

/-- `layerB` after `setTileSize (0,0)` and `setBlockSize (2,2)`: a
degenerate configuration (zero tile size) with a nonempty cached stream
and an unchanged visible rectangle. -/
def layerD : TileLayer := setBlockSize (2, 2) (setTileSize (0, 0) layerB)

/-- A 1×1 layer with a 1×1 texture but 2×2 tiles: the computed atlas
width is `0`, so synthesis of its single (non-sentinel) tile divides by
zero. -/
def layerC2 : TileLayer :=
  setTile (0, 0) 0 noFlip (setTileSize (2, 2) (setTexture ⟨(1, 1)⟩ (init (1, 1))))

/-- A layer whose stored block size has one zero and one nonzero
component, with a nonzero tile size. -/
def layerC1 : TileLayer := setBlockSize (5, 0) (setTileSize (3, 3) (init (1, 1)))

/-- The quad of spec §8: placement rectangle `(0,0,32,32)` with raw
texture-coordinate corners `TL=(0,0) TR=(1,0) BL=(0,1) BR=(1,1)`. -/
def exampleQuad : Quad :=
  ⟨⟨(0, 0), (0, 0)⟩, ⟨(32, 0), (1, 0)⟩, ⟨(0, 32), (0, 1)⟩, ⟨(32, 32), (1, 1)⟩⟩

/-- Modelled from the spec (§4.4): the per-cell vertex positions the spec
prescribes — nothing for a sentinel tile, otherwise the two triangles
`(top-left, top-right, bottom-left)` and
`(bottom-left, top-right, bottom-right)` of the placement rectangle
`position = cellCoordinate × blockSize, size = blockSize`. -/
def cellPositionsSpec (s : TileLayer) (blockSize : Vec2N) (cell : Vec2N) : List Vec2Q :=
  if (s.cellAt cell).tile = NoTile then []
  else
    let x : ℚ := (cell.1 : ℚ) * (blockSize.1 : ℚ)
    let y : ℚ := (cell.2 : ℚ) * (blockSize.2 : ℚ)
    let w : ℚ := (blockSize.1 : ℚ)
    let h : ℚ := (blockSize.2 : ℚ)
    [(x, y), (x + w, y), (x, y + h), (x, y + h), (x + w, y), (x + w, y + h)]

/-! ## Helper lemmas -/

/-- Reading any position of a list whose elements all equal the default
yields the default. -/
lemma getD_all_eq {α : Type} (l : List α) (x : α) (h : ∀ c ∈ l, c = x) (n : ℕ) :
    l.getD n x = x := by
  induction l generalizing n with
  | nil => simp [List.getD]
  | cons a l ih =>
    cases n with
    | zero => simpa using h a (by simp)
    | succ m =>
      simp only [List.getD_cons_succ]
      exact ih (fun c hc => h c (by simp [hc])) m

/-- A valid coordinate's row-major index is within a grid of matching
length. -/
lemma index_lt_of_isValid (s : TileLayer) (p : Vec2N) (hp : s.isValid p)
    (hlen : s.m_tiles.length = s.m_layerSize.1 * s.m_layerSize.2) :
    s.index p < s.m_tiles.length := by
  obtain ⟨hx, hy⟩ := hp
  have h1 : s.index p < (p.2 + 1) * s.m_layerSize.1 := by
    simpa [TileLayer.index, Nat.succ_mul] using Nat.add_lt_add_left hx (p.2 * s.m_layerSize.1)
  have h2 : (p.2 + 1) * s.m_layerSize.1 ≤ s.m_layerSize.2 * s.m_layerSize.1 :=
    Nat.mul_le_mul_right _ hy
  rw [hlen]
  calc s.index p < (p.2 + 1) * s.m_layerSize.1 := h1
    _ ≤ s.m_layerSize.2 * s.m_layerSize.1 := h2
    _ = s.m_layerSize.1 * s.m_layerSize.2 := Nat.mul_comm _ _

/-- Row-major indexing is injective on valid coordinates. -/
lemma index_inj (s : TileLayer) (p q : Vec2N) (hp : s.isValid p) (hq : s.isValid q)
    (h : s.index p = s.index q) : p = q := by
  have hw : 0 < s.m_layerSize.1 := Nat.lt_of_le_of_lt (Nat.zero_le _) hp.1
  have hx : p.1 = q.1 := by
    have h1 := congrArg (· % s.m_layerSize.1) h
    simpa [TileLayer.index, Nat.mul_add_mod_of_lt hp.1,
      Nat.mul_add_mod_of_lt hq.1] using h1
  have hy : p.2 = q.2 := by
    have h2 := congrArg (· / s.m_layerSize.1) h
    simp only [TileLayer.index] at h2
    rw [Nat.mul_comm p.2 _, Nat.mul_comm q.2 _, Nat.mul_add_div hw, Nat.mul_add_div hw,
      Nat.div_eq_of_lt hp.1, Nat.div_eq_of_lt hq.1] at h2
    simpa using h2
  exact Prod.ext hx hy

/-! ## Claims -/

/-- **C1** (counterexample). The claim predicts that `getBlockSize()`
returns the tile size whenever not both block-size components are
nonzero; but at the stored block size `(5,0)` — not both components
nonzero — the code returns `(5,0)`, not the tile size `(3,3)`. -/
theorem getBlockSize_mixed_counterexample :
    ¬ (layerC1.m_blockSize.1 ≠ 0 ∧ layerC1.m_blockSize.2 ≠ 0) ∧
      layerC1.m_tileSize = (3, 3) ∧ getBlockSize layerC1 = (5, 0) ∧
      getBlockSize layerC1 ≠ layerC1.m_tileSize := by
  with_unfolding_all decide

/-- **C1** (amended). `getBlockSize()` returns the stored block size
unless *both* of its components are zero, in which case it returns the
current tile size; the fallback is evaluated on every call, so a tile
size set after the block size was left unset is reflected in the next
call. -/
theorem getBlockSize_fallback (s : TileLayer) :
    (s.m_blockSize = (0, 0) → getBlockSize s = s.m_tileSize) ∧
    (s.m_blockSize ≠ (0, 0) → getBlockSize s = s.m_blockSize) ∧
    (∀ ts : Vec2N, s.m_blockSize = (0, 0) → getBlockSize (setTileSize ts s) = ts) := by
  refine ⟨fun h => ?_, fun h => ?_, fun ts h => ?_⟩
  · simp [TileLayer.getBlockSize, h]
  · have : ¬ (s.m_blockSize.2 = 0 ∧ s.m_blockSize.1 = 0) := by
      intro hc
      exact h (Prod.ext hc.2 hc.1)
    simp [TileLayer.getBlockSize, this]
  · simp [TileLayer.getBlockSize, TileLayer.setTileSize, h]

/-- **C1** (witness). The fallback and its freshness at concrete states. -/
theorem getBlockSize_fallback_witness :
    getBlockSize (init (2, 2)) = (0, 0) ∧
      getBlockSize layerC1 = (5, 0) ∧
      getBlockSize (setTileSize (7, 8) (init (2, 2))) = (7, 8) :=
  ⟨(getBlockSize_fallback (init (2, 2))).1 rfl,
    (getBlockSize_fallback layerC1).2.1 (by with_unfolding_all decide),
    (getBlockSize_fallback (init (2, 2))).2.2 (7, 8) rfl⟩

/-- Every cell of a cleared grid reads as the sentinel cell. -/
lemma cellAt_clear (s : TileLayer) (p : Vec2N) :
    (clear s).cellAt p = ⟨NoTile, noFlip⟩ := by
  simp only [TileLayer.cellAt, TileLayer.clear]
  exact getD_all_eq _ _ (by simp) _

/-- **C9**. After `clear()`, every valid coordinate reads the sentinel
tile `NoTile = -1` and the empty flip set, and the grid dimensions are
unchanged; the freshly constructed layer is in the same all-empty state,
since the constructor clears the freshly sized grid. -/
theorem clear_resets (s : TileLayer) (sz p q : Vec2N) (hp : s.isValid p)
    (hq : (init sz).isValid q) :
    getTile (clear s) p = NoTile ∧ getFlip (clear s) p = noFlip ∧
      (clear s).m_layerSize = s.m_layerSize ∧
      (clear s).m_tiles.length = s.m_tiles.length ∧
      getTile (init sz) q = NoTile ∧ getFlip (init sz) q = noFlip := by
  refine ⟨?_, ?_, rfl, by simp [TileLayer.clear], ?_, ?_⟩
  · simp [TileLayer.getTile, cellAt_clear]
  · simp [TileLayer.getFlip, cellAt_clear]
  · simp [TileLayer.getTile, TileLayer.init, cellAt_clear]
  · simp [TileLayer.getFlip, TileLayer.init, cellAt_clear]

/-- **C9** (witness). A cleared 2×2 layer and a fresh 3×2 layer read as
all-empty at concrete coordinates. -/
theorem clear_resets_witness :
    getTile (clear layerA) (0, 0) = NoTile ∧ getFlip (clear layerA) (0, 0) = noFlip ∧
      (clear layerA).m_layerSize = layerA.m_layerSize ∧
      (clear layerA).m_tiles.length = layerA.m_tiles.length ∧
      getTile (init (3, 2)) (2, 1) = NoTile ∧ getFlip (init (3, 2)) (2, 1) = noFlip :=
  clear_resets layerA (3, 2) (0, 0) (2, 1) (by with_unfolding_all decide)
    (by with_unfolding_all decide)

/-- **C4**. After `setTile(p, t, f)` at a valid coordinate `p`,
`getTile(p)` returns `t` and `getFlip(p)` returns `f`, and every other
valid coordinate `q` reads the same values as before (the grid invariant
`length = width · height` holds for every reachable state). -/
theorem setTile_then_get (s : TileLayer) (p q : Vec2N) (t : ℤ) (f : FlipFlags)
    (hp : s.isValid p) (hq : s.isValid q) (hne : q ≠ p)
    (hlen : s.m_tiles.length = s.m_layerSize.1 * s.m_layerSize.2) :
    getTile (setTile p t f s) p = t ∧ getFlip (setTile p t f s) p = f ∧
      getTile (setTile p t f s) q = getTile s q ∧
      getFlip (setTile p t f s) q = getFlip s q := by
  have hplen : s.index p < s.m_tiles.length := index_lt_of_isValid s p hp hlen
  have htiles : (setTile p t f s).m_tiles = s.m_tiles.set (s.index p) ⟨t, f⟩ := rfl
  have hip : (setTile p t f s).index p = s.index p := rfl
  have hiq : (setTile p t f s).index q = s.index q := rfl
  have hcell : (setTile p t f s).cellAt p = ⟨t, f⟩ := by
    simp only [TileLayer.cellAt, htiles, hip]
    rw [List.getD_eq_getElem?_getD, List.getElem?_set_eq_of_lt _ hplen]
    rfl
  have hne' : s.index p ≠ s.index q := fun h => hne (index_inj s p q hp hq h).symm
  have hcellq : (setTile p t f s).cellAt q = s.cellAt q := by
    simp only [TileLayer.cellAt, htiles, hiq]
    rw [List.getD_eq_getElem?_getD, List.getElem?_set_ne hne',
      ← List.getD_eq_getElem?_getD]
  exact ⟨by simp [TileLayer.getTile, hcell], by simp [TileLayer.getFlip, hcell],
    by simp [TileLayer.getTile, hcellq], by simp [TileLayer.getFlip, hcellq]⟩

/-- **C4** (witness). Writing tile `7` with a horizontal+diagonal flip at
`(0,1)` of a fresh 2×2 layer reads back, and `(1,0)` is untouched. -/
theorem setTile_then_get_witness :
    getTile (setTile (0, 1) 7 ⟨true, false, true⟩ (init (2, 2))) (0, 1) = 7 ∧
      getFlip (setTile (0, 1) 7 ⟨true, false, true⟩ (init (2, 2))) (0, 1) =
        ⟨true, false, true⟩ ∧
      getTile (setTile (0, 1) 7 ⟨true, false, true⟩ (init (2, 2))) (1, 0) =
        getTile (init (2, 2)) (1, 0) ∧
      getFlip (setTile (0, 1) 7 ⟨true, false, true⟩ (init (2, 2))) (1, 0) =
        getFlip (init (2, 2)) (1, 0) :=
  setTile_then_get (init (2, 2)) (0, 1) (1, 0) 7 ⟨true, false, true⟩
    (by with_unfolding_all decide) (by with_unfolding_all decide)
    (by with_unfolding_all decide) (by with_unfolding_all decide)

/-- Applying any flip set never changes the four vertex positions (only
texture coordinates are swapped). -/
lemma flipTexCoords_position (f : FlipFlags) (q : Quad) :
    (flipTexCoords f q).v0.position = q.v0.position ∧
      (flipTexCoords f q).v1.position = q.v1.position ∧
      (flipTexCoords f q).v2.position = q.v2.position ∧
      (flipTexCoords f q).v3.position = q.v3.position := by
  obtain ⟨h, v, d⟩ := f
  cases h <;> cases v <;> cases d <;>
    simp [flipTexCoords, swapTex]

/-- **C3**. During geometry synthesis the flip transforms touch the
texture coordinates only — all four vertex positions are unchanged — and
are applied in the fixed order diagonal (swap top-right ↔ bottom-left
texcoords), then horizontal (swap left ↔ right pairs), then vertical
(swap top ↔ bottom pairs); on the quad with raw texcoord corners
`TL=(0,0) TR=(1,0) BL=(0,1) BR=(1,1)`, a diagonal-only flip yields
`TL=(0,0) TR=(0,1) BL=(1,0) BR=(1,1)`. -/
theorem flip_fixed_order (f : FlipFlags) (q : Quad) :
    ((flipTexCoords f q).v0.position = q.v0.position ∧
      (flipTexCoords f q).v1.position = q.v1.position ∧
      (flipTexCoords f q).v2.position = q.v2.position ∧
      (flipTexCoords f q).v3.position = q.v3.position) ∧
    flipTexCoords f q =
      (let qd := if f.diagonally then diagonalFlipSpec q else q
       let qh := if f.horizontally then horizontalFlipSpec qd else qd
       if f.vertically then verticalFlipSpec qh else qh) ∧
    flipTexCoords ⟨false, false, true⟩ exampleQuad =
      ⟨⟨(0, 0), (0, 0)⟩, ⟨(32, 0), (0, 1)⟩, ⟨(0, 32), (1, 0)⟩, ⟨(32, 32), (1, 1)⟩⟩ := by
  refine ⟨flipTexCoords_position f q, ?_, by with_unfolding_all decide⟩
  obtain ⟨h, v, d⟩ := f
  cases h <;> cases v <;> cases d <;>
    simp [flipTexCoords, swapTex, diagonalFlipSpec, horizontalFlipSpec, verticalFlipSpec]

/-- `getBlockSize` depends only on the block size and the tile size. -/
lemma getBlockSize_congr (s s2 : TileLayer)
    (h2 : s2.m_blockSize = s.m_blockSize) (h3 : s2.m_tileSize = s.m_tileSize) :
    s2.getBlockSize = s.getBlockSize := by
  unfold TileLayer.getBlockSize
  rw [h2, h3]

/-- `cullingBounds` depends only on the layer size, the block size and
the tile size. -/
lemma cullingBounds_congr (s s2 : TileLayer)
    (h1 : s2.m_layerSize = s.m_layerSize) (h2 : s2.m_blockSize = s.m_blockSize)
    (h3 : s2.m_tileSize = s.m_tileSize) :
    s2.cullingBounds = s.cullingBounds := by
  unfold TileLayer.cullingBounds
  rw [h1, getBlockSize_congr s s2 h2 h3]

/-- The visible rectangle computed by `draw` depends only on the layer
size, the block size, the tile size and the transform. -/
lemma computeRect_congr (s s2 : TileLayer) (v : View)
    (h1 : s2.m_layerSize = s.m_layerSize) (h2 : s2.m_blockSize = s.m_blockSize)
    (h3 : s2.m_tileSize = s.m_tileSize) (h4 : s2.m_inv = s.m_inv) :
    computeRect s2 v = computeRect s v := by
  unfold TileLayer.computeRect
  rw [getBlockSize_congr s s2 h2 h3, cullingBounds_congr s s2 h1 h2 h3, h4]

/-- `updateGeometry` only replaces the cached vertex stream. -/
lemma updateGeometry_fields (s s2 : TileLayer) (h : updateGeometry s = some s2) :
    ∃ l, s2 = { s with m_vertices := l } := by
  unfold TileLayer.updateGeometry at h
  by_cases hdeg : s.m_texture = none ∨ s.m_tileSize.1 = 0 ∨ s.m_tileSize.2 = 0
  · rw [if_pos hdeg] at h
    exact ⟨[], (Option.some.inj h).symm⟩
  · rw [if_neg hdeg] at h
    cases hfv : fillVertexArray s s.m_rect with
    | none => rw [hfv] at h; simp at h
    | some l =>
      rw [hfv] at h
      simp only [Option.map_some'] at h
      exact ⟨l, (Option.some.inj h).symm⟩

/-- `draw` with no texture bound returns early. -/
lemma draw_eq_of_tex_none (s : TileLayer) (v : View) (h : s.m_texture = none) :
    draw s v = some (s, false, none) := by
  unfold TileLayer.draw
  rw [h]

/-- `draw` with a texture bound: rebuild iff the computed rectangle
differs from the cached one, then submit. -/
lemma draw_eq_of_tex_some (s : TileLayer) (v : View) (tex : TextureInfo)
    (h : s.m_texture = some tex) :
    draw s v =
      (if s.computeRect v = s.m_rect then some (s, false, some s.m_vertices)
       else (updateGeometry { s with m_rect := s.computeRect v }).map fun s2 =>
         (s2, true, some s2.m_vertices)) := by
  unfold TileLayer.draw
  rw [h]

/-- Inversion of a successful `draw`: either the call returned early with
no texture, or the resulting state holds the texture, the configuration
of the input, a cached rectangle equal to the one `draw` would compute
again, and the submitted stream is its cached one. -/
lemma draw_some_inv (s s1 : TileLayer) (v : View) (b : Bool) (sub : Option (List Vertex))
    (h : draw s v = some (s1, b, sub)) :
    (s.m_texture = none ∧ s1 = s ∧ b = false ∧ sub = none) ∨
      (∃ tex, s.m_texture = some tex ∧ s1.m_texture = some tex ∧
        s1.m_layerSize = s.m_layerSize ∧ s1.m_blockSize = s.m_blockSize ∧
        s1.m_tileSize = s.m_tileSize ∧ s1.m_inv = s.m_inv ∧
        computeRect s1 v = s1.m_rect ∧ sub = some s1.m_vertices) := by
  cases htex : s.m_texture with
  | none =>
    rw [draw_eq_of_tex_none s v htex] at h
    simp only [Option.some.injEq, Prod.mk.injEq] at h
    exact Or.inl ⟨rfl, h.1.symm, h.2.1.symm, h.2.2.symm⟩
  | some tex =>
    rw [draw_eq_of_tex_some s v tex htex] at h
    refine Or.inr ⟨tex, rfl, ?_⟩
    by_cases hr : computeRect s v = s.m_rect
    · rw [if_pos hr] at h
      simp only [Option.some.injEq, Prod.mk.injEq] at h
      obtain ⟨h1, _, h3⟩ := h
      subst h1
      exact ⟨htex, rfl, rfl, rfl, rfl, hr, h3.symm⟩
    · rw [if_neg hr] at h
      cases hup : updateGeometry { s with m_rect := computeRect s v } with
      | none => rw [hup] at h; simp at h
      | some s2 =>
        rw [hup] at h
        simp only [Option.map_some', Option.some.injEq, Prod.mk.injEq] at h
        obtain ⟨h1, _, h3⟩ := h
        subst h1
        exact ⟨(updateGeometry_fields _ _ hup).elim fun l hl => by rw [hl]; exact htex,
          (updateGeometry_fields _ _ hup).elim fun l hl => by rw [hl],
          (updateGeometry_fields _ _ hup).elim fun l hl => by rw [hl],
          (updateGeometry_fields _ _ hup).elim fun l hl => by rw [hl],
          (updateGeometry_fields _ _ hup).elim fun l hl => by rw [hl],
          (updateGeometry_fields _ _ hup).elim fun l hl => by
            rw [hl]; exact computeRect_congr _ s v rfl rfl rfl rfl,
          h3.symm⟩


/-- After a successful `draw`, any state that agrees with the result on
configuration, transform, cached rectangle and cached stream (the grid
may differ) draws again without rebuilding, resubmitting the same
stream. -/
lemma draw_resubmits (s s1 s2 : TileLayer) (v : View) (b : Bool)
    (sub : Option (List Vertex)) (h : draw s v = some (s1, b, sub))
    (hls : s2.m_layerSize = s1.m_layerSize) (hbs : s2.m_blockSize = s1.m_blockSize)
    (hts : s2.m_tileSize = s1.m_tileSize) (hinv : s2.m_inv = s1.m_inv)
    (htex : s2.m_texture = s1.m_texture) (hrect : s2.m_rect = s1.m_rect)
    (hverts : s2.m_vertices = s1.m_vertices) :
    draw s2 v = some (s2, false, sub) := by
  rcases draw_some_inv s s1 v b sub h with ⟨hn, he, _, hsub⟩ |
    ⟨tex, _, h1tex, h1ls, h1bs, h1ts, h1inv, hcr, hsub⟩
  · subst he
    rw [draw_eq_of_tex_none s2 v (htex.trans hn), hsub]
  · rw [draw_eq_of_tex_some s2 v tex (htex.trans h1tex)]
    have hcr2 : computeRect s2 v = s2.m_rect := by
      rw [computeRect_congr s1 s2 v hls hbs hts hinv, hcr, hrect]
    rw [if_pos hcr2, hverts, hsub]

/-- **C5**. `setTile` never touches the cached state: the cached visible
rectangle and the cached geometry buffer are unchanged by any `setTile`;
consequently, after a `draw` has cached its state, editing any tile and
drawing again with the unchanged view resubmits the *old* stream — the
edit does not appear until the computed visible rectangle differs from
the cached one. -/
theorem setTile_keeps_cache (s : TileLayer) (p : Vec2N) (t : ℤ) (f : FlipFlags)
    (v : View) (s1 : TileLayer) (b : Bool) (sub : Option (List Vertex))
    (h : draw s v = some (s1, b, sub)) :
    (setTile p t f s).m_rect = s.m_rect ∧
      (setTile p t f s).m_vertices = s.m_vertices ∧
      draw (setTile p t f s1) v = some (setTile p t f s1, false, sub) :=
  ⟨rfl, rfl, draw_resubmits s s1 (setTile p t f s1) v b sub h rfl rfl rfl rfl rfl rfl rfl⟩

/-- **C5** (witness). After `draw layerA viewA` caches six vertices,
overwriting the very tile inside the cached rectangle and drawing with
the same view still submits the old six vertices. -/
theorem setTile_keeps_cache_witness :
    (setTile (0, 0) 5 noFlip layerA).m_rect = layerA.m_rect ∧
      (setTile (0, 0) 5 noFlip layerA).m_vertices = layerA.m_vertices ∧
      draw (setTile (0, 0) 5 noFlip layerB) viewA =
        some (setTile (0, 0) 5 noFlip layerB, false, some vertsA) :=
  setTile_keeps_cache layerA (0, 0) 5 noFlip viewA layerB true (some vertsA)
    (by with_unfolding_all decide)

/-- **C8**. A second `draw` with an unchanged view (and unchanged grid
and configuration) performs no geometry recomputation: the rebuilt flag
is `false` (the computed visible rectangle equals the cached one whenever
a texture is bound), the state is unchanged, and the same cached stream
is resubmitted. -/
theorem draw_unchanged_view (s : TileLayer) (v : View) (s1 : TileLayer) (b : Bool)
    (sub : Option (List Vertex)) (h : draw s v = some (s1, b, sub)) :
    draw s1 v = some (s1, false, sub) ∧
      (∀ tex : TextureInfo, s.m_texture = some tex → computeRect s1 v = s1.m_rect) := by
  refine ⟨draw_resubmits s s1 s1 v b sub h rfl rfl rfl rfl rfl rfl rfl, fun tex htex => ?_⟩
  rcases draw_some_inv s s1 v b sub h with ⟨hn, _, _, _⟩ |
    ⟨tex2, _, _, _, _, _, _, hcr, _⟩
  · rw [hn] at htex
    exact absurd htex (by simp)
  · exact hcr

/-- **C8** (witness). Drawing `layerB` (the state cached by
`draw layerA viewA`) again with `viewA` resubmits the six cached vertices
without rebuilding, and the recomputed rectangle equals the cached one. -/
theorem draw_unchanged_view_witness :
    draw layerB viewA = some (layerB, false, some vertsA) ∧
      computeRect layerB viewA = layerB.m_rect :=
  have h : draw layerA viewA = some (layerB, true, some vertsA) := by
    with_unfolding_all decide
  ⟨(draw_unchanged_view layerA viewA layerB true (some vertsA) h).1,
    (draw_unchanged_view layerA viewA layerB true (some vertsA) h).2 ⟨(2, 2)⟩ rfl⟩

/-- **C7** (counterexample). A degenerate configuration (zero tile size,
texture bound) in which `draw` submits a nonempty vertex stream: `layerD`
carries six cached vertices and an unchanged visible rectangle, and
`draw` — which only checks the texture, not the tile size — resubmits
them. This refutes "for every degenerate configuration, draw renders
nothing". -/
theorem draw_degenerate_counterexample :
    layerD.m_tileSize = (0, 0) ∧ layerD.m_texture = some ⟨(2, 2)⟩ ∧
      draw layerD viewA = some (layerD, false, some vertsA) ∧ vertsA ≠ [] ∧
      draw layerA viewA = some (layerB, true, some vertsA) ∧
      layerD = setBlockSize (2, 2) (setTileSize (0, 0) layerB) := by
  with_unfolding_all decide

/-- **C7** (amended). With no texture bound, `draw` renders nothing (it
returns before submitting). With no texture or a zero tile-size
component, geometry rebuild clears the vertex stream and returns; no
exception or error is produced on either path. `draw` itself does not
check the tile size, so with zero tile size it still resubmits the cached
stream (which is empty only if the last rebuild happened under the
degenerate configuration). -/
theorem draw_degenerate_amended (s : TileLayer) (v : View)
    (hdeg : s.m_texture = none ∨ s.m_tileSize.1 = 0 ∨ s.m_tileSize.2 = 0) :
    updateGeometry s = some { s with m_vertices := [] } ∧
      (s.m_texture = none → draw s v = some (s, false, none)) := by
  constructor
  · unfold TileLayer.updateGeometry
    rw [if_pos hdeg]
  · intro htex
    exact draw_eq_of_tex_none s v htex

/-- **C7** (witness). A fresh layer (no texture, zero tile size) rebuilds
to the empty stream and draws nothing. -/
theorem draw_degenerate_amended_witness :
    updateGeometry (init (2, 2)) = some { init (2, 2) with m_vertices := [] } ∧
      draw (init (2, 2)) viewA = some (init (2, 2), false, none) :=
  have h := draw_degenerate_amended (init (2, 2)) viewA (Or.inl rfl)
  ⟨h.1, h.2 rfl⟩

/-- **C10**. `getLocalBounds()` multiplies the layer size by the *raw*
stored block size, with no tile-size fallback: with block size unset
`(0,0)` the bounds are a zero-size rectangle even when the tile size is
nonzero, and `setAnchor` — whose origin is derived from these bounds —
sets the origin to `(0,0)` for every anchor; `draw`'s culling bounds, by
contrast, use `getBlockSize()`'s fallback to the tile size. -/
theorem localBounds_raw_blockSize (s : TileLayer) (a : Anchor)
    (hb : s.m_blockSize = (0, 0)) :
    getLocalBounds s = ⟨0, 0, 0, 0⟩ ∧
      (setAnchor a s).m_origin = (0, 0) ∧
      cullingBounds s = ⟨0, 0, (u32mul s.m_layerSize.1 s.m_tileSize.1 : ℚ),
        (u32mul s.m_layerSize.2 s.m_tileSize.2 : ℚ)⟩ := by
  have hlb : getLocalBounds s = ⟨0, 0, 0, 0⟩ := by
    unfold TileLayer.getLocalBounds
    rw [hb]
    simp [u32mul]
  refine ⟨hlb, ?_, ?_⟩
  · unfold TileLayer.setAnchor
    rw [hlb]
    cases a <;> simp [anchorFactor]
  · unfold TileLayer.cullingBounds TileLayer.getBlockSize
    rw [hb]
    simp

/-- **C10** (witness). A 4×4 layer with unset block size and tile size
`(3,3)`: local bounds are empty, `setAnchor center` yields origin
`(0,0)`, and the culling bounds extend to `12×12`. -/
theorem localBounds_raw_blockSize_witness :
    getLocalBounds (setTileSize (3, 3) (init (4, 4))) = ⟨0, 0, 0, 0⟩ ∧
      (setAnchor .center (setTileSize (3, 3) (init (4, 4)))).m_origin = (0, 0) ∧
      cullingBounds (setTileSize (3, 3) (init (4, 4))) =
        ⟨0, 0, (u32mul 4 3 : ℚ), (u32mul 4 3 : ℚ)⟩ :=
  localBounds_raw_blockSize (setTileSize (3, 3) (init (4, 4))) .center rfl

/-- `fillVertexArray` with a bound texture: guard the divisor, then run
the per-cell loop. -/
lemma fillVertexArray_eq_of_tex (s : TileLayer) (rect : RectN) (tex : TextureInfo)
    (h : s.m_texture = some tex) :
    fillVertexArray s rect =
      (if (tileStep s).1 = 0 ∨ (tileStep s).2 = 0 then none
       else s.appendCells tex (tilesetSizeOf s tex) s.getBlockSize (cellsOf rect)) := by
  unfold TileLayer.fillVertexArray
  rw [h]

/-- A cell whose preconditions hold emits successfully. -/
lemma emitCell_isSome (s : TileLayer) (tex : TextureInfo) (ts bs : Vec2N) (c : Vec2N)
    (hv : s.isValid c) (hw : ts.1 ≠ 0)
    (ht : (s.cellAt c).tile ≠ NoTile →
      0 ≤ (s.cellAt c).tile ∧ (s.cellAt c).tile.toNat < ts.1 * ts.2) :
    (s.emitCell tex ts bs c).isSome := by
  simp only [TileLayer.emitCell]
  rw [if_neg (not_not_intro hv)]
  by_cases hsent : (s.cellAt c).tile = NoTile
  · rw [if_pos hsent]
    rfl
  · obtain ⟨hge, hlt⟩ := ht hsent
    rw [if_neg hsent, if_neg (not_lt.mpr hge), if_neg hw]
    have hdiv : (s.cellAt c).tile.toNat / ts.1 < ts.2 :=
      (Nat.div_lt_iff_lt_mul (Nat.pos_of_ne_zero hw)).mpr
        (by rw [Nat.mul_comm]; exact hlt)
    rw [if_neg (not_not_intro hdiv)]
    rfl

/-- If every cell emits successfully, the whole loop does. -/
lemma appendCells_isSome (s : TileLayer) (tex : TextureInfo) (ts bs : Vec2N)
    (cs : List Vec2N) (h : ∀ c ∈ cs, (s.emitCell tex ts bs c).isSome) :
    (s.appendCells tex ts bs cs).isSome := by
  induction cs with
  | nil => rfl
  | cons c cs ih =>
    unfold TileLayer.appendCells
    obtain ⟨vs, hvs⟩ := Option.isSome_iff_exists.mp (h c (List.mem_cons_self c cs))
    rw [hvs]
    obtain ⟨l, hl⟩ := Option.isSome_iff_exists.mp
      (ih fun x hx => h x (List.mem_cons_of_mem c hx))
    rw [hl]
    rfl

/-- **C2** (counterexample). A configuration reachable through the public
interface — texture bound, nonzero tile size, the only coordinate valid —
on which geometry synthesis faults: with a 1×1 texture and 2×2 tiles the
computed atlas width is zero, and the `tileIndex mod atlasWidth`
computation divides by zero, so `commitGeometry` (and `draw`, which
reaches the same synthesis through its rebuild) is not total. Neither of
the two specified error classes applies: the coordinate is valid and the
configuration is not degenerate in the spec's sense. -/
theorem synthesis_fault_counterexample :
    layerC2.m_texture = some ⟨(1, 1)⟩ ∧ layerC2.m_tileSize = (2, 2) ∧
      getTile layerC2 (0, 0) = 0 ∧ tilesetSizeOf layerC2 ⟨(1, 1)⟩ = (0, 0) ∧
      commitGeometry layerC2 = none ∧ draw layerC2 viewA = none := by
  with_unfolding_all decide

/-- **C2** (amended). Geometry synthesis is a pure, total function of its
inputs *provided* a texture is bound, the divisor `tileSize + spacing` has
no zero component, the computed atlas width is nonzero, and every cell of
the rectangle is a valid coordinate whose non-sentinel tile index lies in
`[0, atlasWidth · atlasHeight)`; under these conditions `fillVertexArray`
runs to completion, and so does `commitGeometry` (which is
`fillVertexArray` over the full grid rectangle). -/
theorem fillVertexArray_total (s : TileLayer) (rect : RectN) (tex : TextureInfo)
    (htex : s.m_texture = some tex)
    (h1 : (tileStep s).1 ≠ 0) (h2 : (tileStep s).2 ≠ 0)
    (hw : (tilesetSizeOf s tex).1 ≠ 0)
    (hcells : ∀ c ∈ cellsOf rect, s.isValid c ∧
      ((s.cellAt c).tile ≠ NoTile → 0 ≤ (s.cellAt c).tile ∧
        (s.cellAt c).tile.toNat < (tilesetSizeOf s tex).1 * (tilesetSizeOf s tex).2)) :
    (fillVertexArray s rect).isSome ∧
      (rect = ⟨0, 0, s.m_layerSize.1, s.m_layerSize.2⟩ → (commitGeometry s).isSome) := by
  have hfill : (fillVertexArray s rect).isSome := by
    rw [fillVertexArray_eq_of_tex s rect tex htex,
      if_neg (by push_neg; exact ⟨h1, h2⟩)]
    exact appendCells_isSome s tex _ _ _ fun c hc =>
      emitCell_isSome s tex _ _ c (hcells c hc).1 hw (hcells c hc).2
  refine ⟨hfill, fun hrect => ?_⟩
  unfold TileLayer.commitGeometry
  rw [← hrect]
  exact hfill

/-- **C2** (witness). On the healthy layer `layerA`, synthesis of the full
1×1 grid runs to completion. -/
theorem fillVertexArray_total_witness :
    (fillVertexArray layerA ⟨0, 0, 1, 1⟩).isSome ∧ (commitGeometry layerA).isSome :=
  have h := fillVertexArray_total layerA ⟨0, 0, 1, 1⟩ ⟨(2, 2)⟩ rfl
    (by with_unfolding_all decide) (by with_unfolding_all decide)
    (by with_unfolding_all decide) (by with_unfolding_all decide)
  ⟨h.1, h.2 rfl⟩

/-- A successful cell emission's vertex positions are exactly the
spec-side placement corners, in triangle order. -/
lemma emitCell_positions (s : TileLayer) (tex : TextureInfo) (ts bs : Vec2N)
    (c : Vec2N) (vs : List Vertex) (h : s.emitCell tex ts bs c = some vs)
    (hs1 : c.1 * bs.1 < U32) (hs2 : c.2 * bs.2 < U32) :
    vs.map Vertex.position = cellPositionsSpec s bs c := by
  simp only [TileLayer.emitCell] at h
  by_cases hv : s.isValid c
  swap
  · rw [if_pos (by exact hv)] at h
    exact absurd h (by simp)
  rw [if_neg (not_not_intro hv)] at h
  by_cases hsent : (s.cellAt c).tile = NoTile
  · rw [if_pos hsent] at h
    obtain rfl := (Option.some.inj h).symm
    simp [cellPositionsSpec, hsent]
  rw [if_neg hsent] at h
  by_cases hneg : (s.cellAt c).tile < 0
  · rw [if_pos hneg] at h
    exact absurd h (by simp)
  rw [if_neg hneg] at h
  by_cases hts : ts.1 = 0
  · rw [if_pos hts] at h
    exact absurd h (by simp)
  rw [if_neg hts] at h
  by_cases hrow : (s.cellAt c).tile.toNat / ts.1 < ts.2
  swap
  · rw [if_pos (by exact hrow)] at h
    exact absurd h (by simp)
  rw [if_neg (not_not_intro hrow)] at h
  obtain rfl := (Option.some.inj h).symm
  have e1 : u32mul c.1 bs.1 = c.1 * bs.1 := Nat.mod_eq_of_lt hs1
  have e2 : u32mul c.2 bs.2 = c.2 * bs.2 := Nat.mod_eq_of_lt hs2
  simp only [List.map_cons, List.map_nil, cellPositionsSpec, if_neg hsent]
  obtain ⟨q1, q2, q3, q4⟩ := flipTexCoords_position ((s.cellAt c).flip)
    ⟨⟨RectQ.getTopLeft _, RectQ.getTopLeft _⟩, ⟨RectQ.getTopRight _, RectQ.getTopRight _⟩,
      ⟨RectQ.getBottomLeft _, RectQ.getBottomLeft _⟩,
      ⟨RectQ.getBottomRight _, RectQ.getBottomRight _⟩⟩
  rw [q1, q2, q3, q4]
  simp [RectQ.getTopLeft, RectQ.getTopRight, RectQ.getBottomLeft, RectQ.getBottomRight,
    e1, e2, Nat.cast_mul]

/-- The loop's output, position-wise, is the concatenation of the
spec-side per-cell positions. -/
lemma appendCells_positions (s : TileLayer) (tex : TextureInfo) (ts bs : Vec2N)
    (cs : List Vec2N) (l : List Vertex) (h : s.appendCells tex ts bs cs = some l)
    (hsmall : ∀ c ∈ cs, c.1 * bs.1 < U32 ∧ c.2 * bs.2 < U32) :
    l.map Vertex.position = cs.flatMap (cellPositionsSpec s bs) := by
  induction cs generalizing l with
  | nil =>
    obtain rfl := (Option.some.inj h).symm
    simp
  | cons c cs ih =>
    unfold TileLayer.appendCells at h
    cases hvc : s.emitCell tex ts bs c with
    | none => rw [hvc] at h; exact absurd h (by simp)
    | some vs =>
      rw [hvc] at h
      cases hrest : s.appendCells tex ts bs cs with
      | none => rw [hrest] at h; exact absurd h (by simp)
      | some l2 =>
        rw [hrest] at h
        simp only [Option.map_some', Option.some.injEq] at h
        subst h
        rw [List.map_append, List.flatMap_cons,
          ih l2 hrest fun x hx => hsmall x (List.mem_cons_of_mem c hx),
          emitCell_positions s tex ts bs c vs hvc
            (hsmall c (List.mem_cons_self c cs)).1 (hsmall c (List.mem_cons_self c cs)).2]

/-- A `flatMap` over cells that all map to `[]` is `[]`. -/
lemma flatMap_nil_of_forall {α β : Type} (l : List α) (f : α → List β)
    (h : ∀ x ∈ l, f x = []) : l.flatMap f = [] := by
  induction l with
  | nil => rfl
  | cons a l ih =>
    rw [List.flatMap_cons, h a (List.mem_cons_self a l),
      ih fun x hx => h x (List.mem_cons_of_mem a hx)]
    rfl

/-- **C6**. A successful `fillVertexArray` emits nothing for sentinel
(`NoTile`) cells — in particular a rectangle of only sentinel tiles
produces zero vertices — and for each non-sentinel cell exactly 6
vertices whose positions are the two triangles
`(top-left, top-right, bottom-left)` and
`(bottom-left, top-right, bottom-right)` of the placement rectangle
`position = cellCoordinate × blockSize, size = blockSize`, in the same
corner order for every tile (the bounds keep the 32-bit products exact). -/
theorem fillVertexArray_structure (s : TileLayer) (rect : RectN) (l : List Vertex)
    (h : fillVertexArray s rect = some l)
    (hsmall : ∀ c ∈ cellsOf rect,
      c.1 * s.getBlockSize.1 < U32 ∧ c.2 * s.getBlockSize.2 < U32) :
    l.map Vertex.position = (cellsOf rect).flatMap (cellPositionsSpec s s.getBlockSize) ∧
      ((∀ c ∈ cellsOf rect, (s.cellAt c).tile = NoTile) → l = []) := by
  cases htex : s.m_texture with
  | none =>
    rw [show fillVertexArray s rect = none by unfold TileLayer.fillVertexArray; rw [htex]]
      at h
    exact absurd h (by simp)
  | some tex =>
    rw [fillVertexArray_eq_of_tex s rect tex htex] at h
    by_cases hz : (tileStep s).1 = 0 ∨ (tileStep s).2 = 0
    · rw [if_pos hz] at h
      exact absurd h (by simp)
    rw [if_neg hz] at h
    have hmap := appendCells_positions s tex _ _ _ l h hsmall
    refine ⟨hmap, fun hall => ?_⟩
    have hnil : (cellsOf rect).flatMap (cellPositionsSpec s s.getBlockSize) = [] :=
      flatMap_nil_of_forall _ _ fun c hc => by
        simp [cellPositionsSpec, hall c hc]
    rw [hnil] at hmap
    simpa using hmap

/-- **C6** (witness). Synthesis of `layerA`'s single-cell rectangle yields
six vertices whose positions match the spec-side triangle corners, and
the sentinel-only implication is vacuously dischargeable. -/
theorem fillVertexArray_structure_witness :
    vertsA.map Vertex.position =
      (cellsOf ⟨0, 0, 1, 1⟩).flatMap (cellPositionsSpec layerA layerA.getBlockSize) ∧
      ((∀ c ∈ cellsOf ⟨0, 0, 1, 1⟩, (layerA.cellAt c).tile = NoTile) → vertsA = []) :=
  fillVertexArray_structure layerA ⟨0, 0, 1, 1⟩ vertsA
    (by with_unfolding_all decide) (by with_unfolding_all decide)

end GfTileLayer
